import Mathlib

/-!
Verification development for the RTS data worker module (`ps_data_worker.py`).

The module is straight-line extract-transform-load code:

* `create_ps_data_from_rts_data` normalizes raw bus / generator / branch
  records into a `PSData` keyed by dense 0-based positions, computing
  per-unit quantities, per-bus area load shares and the slack bus;
* `create_pwlcost_from_rts_data` builds a three-segment piecewise-linear
  cost curve per generator;
* `RTSDataSet.read_rts_timeseries` derives per-row timestamps from
  year/month/day/period columns.

Modelling conventions.  Python floats are modelled by `ℚ` (the code performs
only field operations, so the algebra is exact over `ℚ`).  The records the
code reads out of pandas (`to_dict('records')`) carry native Python scalars,
so `x / 0.0` raises `ZeroDivisionError` and a missing dict key raises
`KeyError`; both failure modes are made explicit with `Except PSError`.
A Python dict whose keys are assigned in a loop is modelled by the
last-assignment-wins lookup `lastIdxWhere`.
-/

/-- Failure modes of the normalizer: `keyError` models a Python `KeyError`
(dict lookup of an absent key), `zeroDivision` models `ZeroDivisionError`
(division of a native float by zero). -/
inductive PSError where
  | keyError : PSError
  | zeroDivision : PSError
deriving DecidableEq, Inhabited

/-- One record of `rtsdata.bus` (a row of `SourceData/bus.csv` after column
renaming), restricted to the fields the worker reads. -/
structure RTSBus where
  bus_id : Int
  bus_type : String
  area : Int
  lat : ℚ
  lng : ℚ
  mw_load : ℚ
deriving DecidableEq, Inhabited

/-- One record of `rtsdata.gen`, restricted to the fields the worker reads
(both by the normalizer and by the cost-curve builder). -/
structure RTSGen where
  gen_uid : String
  unit_type : String
  fuel : String
  bus_id : Int
  min_down_time_hr : ℚ
  min_up_time_hr : ℚ
  pmax_mw : ℚ
  pmin_mw : ℚ
  ramp_rate_mw_per_min : ℚ
  output_pct_0 : ℚ
  output_pct_1 : ℚ
  output_pct_2 : ℚ
  output_pct_3 : ℚ
  hr_avg_0 : ℚ
  hr_incr_1 : ℚ
  hr_incr_2 : ℚ
  hr_incr_3 : ℚ
  fuel_price_dollar_per_mmbtu : ℚ
deriving DecidableEq, Inhabited

/-- One record of `rtsdata.branch`, restricted to the fields the worker reads. -/
structure RTSBranch where
  uid : String
  from_bus : Int
  to_bus : Int
  r : ℚ
  x : ℚ
  b : ℚ
  cont_rating : ℚ
  ste_rating : ℚ
deriving DecidableEq, Inhabited

/-- The part of `RTSDataSet` consumed by the two builders: the three raw
record lists and the base power (`basemva`, default 100 in the source). -/
structure RTSData where
  bus : List RTSBus
  gen : List RTSGen
  branch : List RTSBranch
  basemva : ℚ
deriving DecidableEq, Inhabited

/-- A normalized bus entry of `PSData.busdata` (the `newbus` dict). -/
structure PSBus where
  id : Int
  type : String
  area : Int
  lat : ℚ
  lon : ℚ
  area_load_share : ℚ
  is_slack : Bool
  gens : List Nat
  branches_out : List Nat
  branches_in : List Nat
deriving DecidableEq, Inhabited

/-- A normalized generator entry of `PSData.gendata` (the `newgen` dict). -/
structure PSGen where
  id : String
  type : String
  fuel : String
  bus : Nat
  min_down_time_hr : ℚ
  min_up_time_hr : ℚ
  pmax_mw : ℚ
  pmax_pu : ℚ
  pmin_mw : ℚ
  pmin_pu : ℚ
  ramp_rate_mw_min : ℚ
  ramp_rate_pu_min : ℚ
deriving DecidableEq, Inhabited

/-- A normalized branch entry of `PSData.branchdata` (the `newbranch` dict). -/
structure PSBranch where
  id : String
  from_bus : Nat
  to_bus : Nat
  r_pu : ℚ
  x_pu : ℚ
  b_pu : ℚ
  cap_mw : ℚ
  cap_pu : ℚ
  emergency_cap_mw : ℚ
  emergency_cap_pu : ℚ
deriving DecidableEq, Inhabited

/-- The normalized network (class `PSData` in the source).  The three
`*indexmap` dicts are kept as association lists in insertion order. -/
structure PSData where
  busdata : List PSBus
  busindexmap : List (Int × Nat)
  gendata : List PSGen
  genindexmap : List (String × Nat)
  branchdata : List PSBranch
  branchindexmap : List (String × Nat)
  basemva : ℚ
  slackbus : Option Nat
  nbuses : Nat
  ngens : Nat
  nbranches : Nat
deriving DecidableEq, Inhabited

/-- Pairs each list element with its 0-based position, mirroring Python's
`enumerate` starting from `n`. -/
def withIdx {α : Type} : Nat → List α → List (Nat × α)
  | _, [] => []
  | n, a :: as => (n, a) :: withIdx (n + 1) as

/-- The position stored for a key by a loop that assigns `d[key f a] = i` for
`i, a` in `enumerate(l)`: the position of the last element whose key matches,
`none` when no element matches (a lookup then raises `KeyError`). -/
def lastIdxWhere {α : Type} (P : α → Bool) : Nat → List α → Option Nat
  | _, [] => none
  | n, a :: l =>
    match lastIdxWhere P (n + 1) l with
    | some j => some j
    | none => if P a then some n else none

/-- `busindexmap[bid]`: the dict maps `bus['bus_id']` to the bus position `i`,
assigned while enumerating the bus list, so a duplicated id keeps the last
position. -/
def busIndexOf (buses : List RTSBus) (bid : Int) : Option Nat :=
  lastIdxWhere (fun bus => bus.bus_id == bid) 0 buses

/-- The `slackbus` variable after the bus loop: the position of the last bus
whose `bus_type` is `"Ref"`, `none` when there is no such bus. -/
def slackbus_of (buses : List RTSBus) : Option Nat :=
  lastIdxWhere (fun bus => bus.bus_type == "Ref") 0 buses

/-- `area_load[a]` after the first loop of `create_ps_data_from_rts_data`:
the total `mw_load` over the buses whose `area` equals `a`. -/
def area_load (buses : List RTSBus) (a : Int) : ℚ :=
  ((buses.filter (fun bus => bus.area == a)).map (fun bus => bus.mw_load)).sum

/-- Body of the bus loop: builds `newbus` for one input bus.  The division
`bus['mw_load'] / area_load[bus['area']]` raises `ZeroDivisionError` when the
area total is zero, hence the guard. -/
def buildBus (buses : List RTSBus) (bus : RTSBus) : Except PSError PSBus :=
  if area_load buses bus.area = 0 then .error .zeroDivision
  else .ok
    { id := bus.bus_id
      type := bus.bus_type
      area := bus.area
      lat := bus.lat
      lon := bus.lng
      area_load_share := bus.mw_load / area_load buses bus.area
      is_slack := bus.bus_type == "Ref"
      gens := []
      branches_out := []
      branches_in := [] }

/-- Body of the generator loop: builds `newgen` for one input generator.
The dict literal evaluates `busindexmap[gen['bus_id']]` (possible `KeyError`)
before the per-unit divisions by `basemva` (possible `ZeroDivisionError`). -/
def buildGen (basemva : ℚ) (buses : List RTSBus) (gen : RTSGen) :
    Except PSError PSGen :=
  match busIndexOf buses gen.bus_id with
  | none => .error .keyError
  | some bidx =>
    if basemva = 0 then .error .zeroDivision
    else .ok
      { id := gen.gen_uid
        type := gen.unit_type
        fuel := gen.fuel
        bus := bidx
        min_down_time_hr := gen.min_down_time_hr
        min_up_time_hr := gen.min_up_time_hr
        pmax_mw := gen.pmax_mw
        pmax_pu := gen.pmax_mw / basemva
        pmin_mw := gen.pmin_mw
        pmin_pu := gen.pmin_mw / basemva
        ramp_rate_mw_min := gen.ramp_rate_mw_per_min
        ramp_rate_pu_min := gen.ramp_rate_mw_per_min / basemva }

/-- Body of the branch loop: builds `newbranch` for one input branch.  The
dict literal looks up `from_bus`, then `to_bus`, then divides by `basemva`. -/
def buildBranch (basemva : ℚ) (buses : List RTSBus) (branch : RTSBranch) :
    Except PSError PSBranch :=
  match busIndexOf buses branch.from_bus with
  | none => .error .keyError
  | some fidx =>
    match busIndexOf buses branch.to_bus with
    | none => .error .keyError
    | some tidx =>
      if basemva = 0 then .error .zeroDivision
      else .ok
        { id := branch.uid
          from_bus := fidx
          to_bus := tidx
          r_pu := branch.r
          x_pu := branch.x
          b_pu := branch.b
          cap_mw := branch.cont_rating
          cap_pu := branch.cont_rating / basemva
          emergency_cap_mw := branch.ste_rating
          emergency_cap_pu := branch.ste_rating / basemva }

/-- Runs a loop body over a list, stopping at the first raised error — the
Python `for` loop either finishes all iterations or propagates the first
exception, producing no incomplete result. -/
def mapExcept {α β : Type} (f : α → Except PSError β) :
    List α → Except PSError (List β)
  | [] => .ok []
  | a :: as =>
    match f a with
    | .error e => .error e
    | .ok b =>
      match mapExcept f as with
      | .error e => .error e
      | .ok bs => .ok (b :: bs)

/-- The contents of `busdata[j]['gens']` after the generator loop: the loop
appends `i` to the owning bus's list in increasing `i`, so bus `j` ends up
with the ascending positions of the generators whose resolved bus is `j`. -/
def gensAtBus (gendata : List PSGen) (j : Nat) : List Nat :=
  ((withIdx 0 gendata).filter (fun p => p.2.bus == j)).map Prod.fst

/-- The contents of `busdata[j]['branches_out']` after the branch loop. -/
def branchesOutAtBus (branchdata : List PSBranch) (j : Nat) : List Nat :=
  ((withIdx 0 branchdata).filter (fun p => p.2.from_bus == j)).map Prod.fst

/-- The contents of `busdata[j]['branches_in']` after the branch loop. -/
def branchesInAtBus (branchdata : List PSBranch) (j : Nat) : List Nat :=
  ((withIdx 0 branchdata).filter (fun p => p.2.to_bus == j)).map Prod.fst

/-- Rewrites every bus entry with the generator/branch incidence lists that
the generator and branch loops of the source append into `busdata` in place;
`j` is the position of the first bus of the suffix being processed. -/
def relinkBuses (gendata : List PSGen) (branchdata : List PSBranch) :
    Nat → List PSBus → List PSBus
  | _, [] => []
  | j, bus :: rest =>
    { bus with
      gens := gensAtBus gendata j
      branches_out := branchesOutAtBus branchdata j
      branches_in := branchesInAtBus branchdata j }
      :: relinkBuses gendata branchdata (j + 1) rest

/-- `create_ps_data_from_rts_data(rtsdata)`: the three loops of the source in
order (buses, then generators, then branches), assembling the final `PSData`
exactly as the constructor call at the end of the function does. -/
def create_ps_data_from_rts_data (rtsdata : RTSData) : Except PSError PSData :=
  match mapExcept (buildBus rtsdata.bus) rtsdata.bus with
  | .error e => .error e
  | .ok busdata0 =>
    match mapExcept (buildGen rtsdata.basemva rtsdata.bus) rtsdata.gen with
    | .error e => .error e
    | .ok gendata =>
      match mapExcept (buildBranch rtsdata.basemva rtsdata.bus) rtsdata.branch with
      | .error e => .error e
      | .ok branchdata =>
        .ok
          { busdata := relinkBuses gendata branchdata 0 busdata0
            busindexmap := (withIdx 0 rtsdata.bus).map (fun p => (p.2.bus_id, p.1))
            gendata := gendata
            genindexmap := (withIdx 0 rtsdata.gen).map (fun p => (p.2.gen_uid, p.1))
            branchdata := branchdata
            branchindexmap := (withIdx 0 rtsdata.branch).map (fun p => (p.2.uid, p.1))
            basemva := rtsdata.basemva
            slackbus := slackbus_of rtsdata.bus
            nbuses := (relinkBuses gendata branchdata 0 busdata0).length
            ngens := gendata.length
            nbranches := branchdata.length }

/-- The result type of the cost-curve builder (`namedtuple PWLCost`). -/
structure PWLCost where
  slopes : List ℚ
  intercepts : List ℚ
  nums : Nat
deriving DecidableEq, Inhabited

/-- `x1.min()` in the source: with `segments = 1`, `x1 = linspace(p0, p1, 2)`
is just the two endpoints, so its minimum is `min p0 p1`. -/
def pwl_m1 (g : RTSGen) : ℚ := min g.output_pct_0 g.output_pct_1

/-- The elementwise array `y1 = (x1 - x1.min()) * hr_incr_1 + hr_avg_0 * x1.min()`
as a function of the array entry. -/
def pwl_y1 (g : RTSGen) (x : ℚ) : ℚ :=
  (x - pwl_m1 g) * g.hr_incr_1 + g.hr_avg_0 * pwl_m1 g

/-- `y1.max()`: the maximum over the two entries of `y1`. -/
def pwl_y1max (g : RTSGen) : ℚ :=
  max (pwl_y1 g g.output_pct_0) (pwl_y1 g g.output_pct_1)

/-- `x2.min()` for `x2 = linspace(p1, p2, 2)`. -/
def pwl_m2 (g : RTSGen) : ℚ := min g.output_pct_1 g.output_pct_2

/-- The elementwise array `y2 = (x2 - x2.min()) * hr_incr_2 + y1.max()`. -/
def pwl_y2 (g : RTSGen) (x : ℚ) : ℚ :=
  (x - pwl_m2 g) * g.hr_incr_2 + pwl_y1max g

/-- `y2.max()`: the maximum over the two entries of `y2`. -/
def pwl_y2max (g : RTSGen) : ℚ :=
  max (pwl_y2 g g.output_pct_1) (pwl_y2 g g.output_pct_2)

/-- `x3.min()` for `x3 = linspace(p2, p3, 2)`. -/
def pwl_m3 (g : RTSGen) : ℚ := min g.output_pct_2 g.output_pct_3

/-- The elementwise array `y3 = (x3 - x3.min()) * hr_incr_3 + y2.max()`. -/
def pwl_y3 (g : RTSGen) (x : ℚ) : ℚ :=
  (x - pwl_m3 g) * g.hr_incr_3 + pwl_y2max g

/-- `xs` after `xs = [x * pmax_mw for x in xs]`: the four fractional output
breakpoints `[x1[0], x1[-1], x2[-1], x3[-1]] = [p0, p1, p2, p3]` scaled to
megawatts. -/
def pwl_xs (g : RTSGen) : List ℚ :=
  [g.output_pct_0 * g.pmax_mw, g.output_pct_1 * g.pmax_mw,
   g.output_pct_2 * g.pmax_mw, g.output_pct_3 * g.pmax_mw]

/-- `ys` after `ys = [y * pmax_mw * fuel_price / 1000 for y in ys]`: the four
cumulative cost values `[y1[0], y1[-1], y2[-1], y3[-1]]` scaled to dollars. -/
def pwl_ys (g : RTSGen) : List ℚ :=
  [pwl_y1 g g.output_pct_0 * g.pmax_mw * g.fuel_price_dollar_per_mmbtu / 1000,
   pwl_y1 g g.output_pct_1 * g.pmax_mw * g.fuel_price_dollar_per_mmbtu / 1000,
   pwl_y2 g g.output_pct_2 * g.pmax_mw * g.fuel_price_dollar_per_mmbtu / 1000,
   pwl_y3 g g.output_pct_3 * g.pmax_mw * g.fuel_price_dollar_per_mmbtu / 1000]

/-- One iteration of the slope/intercept loop (`for s in [1,2,3]`): when the
segment width `dx` is exactly zero the division is skipped and both outputs
are defined as 0; otherwise `slope = Δy/Δx` and
`intercept = ys[s-1] - slope * xs[s-1]`. -/
def pwlSeg (xs ys : List ℚ) (s : Nat) : ℚ × ℚ :=
  let dx := xs.getD s 0 - xs.getD (s - 1) 0
  if dx = 0 then (0, 0)
  else
    let slope := (ys.getD s 0 - ys.getD (s - 1) 0) / dx
    (slope, ys.getD (s - 1) 0 - slope * xs.getD (s - 1) 0)

/-- The `PWLCost` built for one generator record: the three (slope,
intercept) pairs for segments `s = 1, 2, 3`, with `nums = 3`. -/
def create_pwlcost_one (g : RTSGen) : PWLCost :=
  { slopes := [(pwlSeg (pwl_xs g) (pwl_ys g) 1).1,
               (pwlSeg (pwl_xs g) (pwl_ys g) 2).1,
               (pwlSeg (pwl_xs g) (pwl_ys g) 3).1]
    intercepts := [(pwlSeg (pwl_xs g) (pwl_ys g) 1).2,
                   (pwlSeg (pwl_xs g) (pwl_ys g) 2).2,
                   (pwlSeg (pwl_xs g) (pwl_ys g) 3).2]
    nums := 3 }

/-- `create_pwlcost_from_rts_data(rtsdata)`: one `PWLCost` per generator, in
input order. -/
def create_pwlcost_from_rts_data (rtsdata : RTSData) : List PWLCost :=
  rtsdata.gen.map create_pwlcost_one

/-- A row of a time-series table: the integer `Year`, `Month`, `Day`,
`Period` columns (the value columns play no role in timestamp derivation). -/
structure TSRow where
  year : Int
  month : Int
  day : Int
  period : Int
deriving DecidableEq, Inhabited

/-- A `pd.Timestamp` produced by `pd.to_datetime(df[['Year','Month','Day']])
+ pd.to_timedelta(...)`: the calendar date plus an offset in minutes past
that date's midnight (the offsets produced here are below one day, so no
calendar normalization is involved). -/
structure Timestamp where
  year : Int
  month : Int
  day : Int
  minutes : Int
deriving DecidableEq, Inhabited

/-- A row of the returned table: the original columns plus the optional
`Timestamp` column (absent on the diagnostic-only path). -/
structure TSRowOut where
  row : TSRow
  timestamp : Option Timestamp
deriving DecidableEq, Inhabited

/-- `RTSDataSet.read_rts_timeseries`: if the maximum `Period` over the whole
table is 24 each row gets `date + (period - 1) hours`; if it is 288 each row
gets `date + 5 * (period - 1) minutes`; otherwise only a diagnostic is
printed and the table is returned without a `Timestamp` column. -/
def read_rts_timeseries (rows : List TSRow) : List TSRowOut :=
  if (rows.map (fun r => r.period)).max? = some 24 then
    rows.map (fun r => ⟨r, some ⟨r.year, r.month, r.day, (r.period - 1) * 60⟩⟩)
  else if (rows.map (fun r => r.period)).max? = some 288 then
    rows.map (fun r => ⟨r, some ⟨r.year, r.month, r.day, 5 * (r.period - 1)⟩⟩)
  else
    rows.map (fun r => ⟨r, none⟩)

/-! ### Generic lemmas about the loop combinators -/

theorem mapExcept_ok_forall₂ {α β : Type} {f : α → Except PSError β} :
    ∀ {l : List α} {l2 : List β}, mapExcept f l = .ok l2 →
      List.Forall₂ (fun a b => f a = .ok b) l l2 := by
  intro l
  induction l with
  | nil =>
    intro l2 h
    simp only [mapExcept, Except.ok.injEq] at h
    subst h
    exact List.Forall₂.nil
  | cons a as ih =>
    intro l2 h
    simp only [mapExcept] at h
    cases hfa : f a with
    | error e => rw [hfa] at h; exact absurd h (by simp)
    | ok b =>
      rw [hfa] at h
      cases hrest : mapExcept f as with
      | error e => rw [hrest] at h; exact absurd h (by simp)
      | ok bs =>
        rw [hrest] at h
        simp only [Except.ok.injEq] at h
        subst h
        exact List.Forall₂.cons hfa (ih hrest)

theorem forall₂_mem_left {α β : Type} {R : α → β → Prop}
    {l : List α} {l2 : List β} (h : List.Forall₂ R l l2) :
    ∀ a ∈ l, ∃ b ∈ l2, R a b := by
  induction h with
  | nil => intro a ha; exact absurd ha (by simp)
  | @cons a b l1 l2 hab htail ih =>
    intro x hx
    rcases List.mem_cons.mp hx with hx | hx
    · subst hx; exact ⟨b, List.mem_cons_self _ _, hab⟩
    · rcases ih x hx with ⟨y, hy, hxy⟩
      exact ⟨y, List.mem_cons_of_mem _ hy, hxy⟩

theorem forall₂_mem_right {α β : Type} {R : α → β → Prop}
    {l : List α} {l2 : List β} (h : List.Forall₂ R l l2) :
    ∀ b ∈ l2, ∃ a ∈ l, R a b := by
  induction h with
  | nil => intro b hb; exact absurd hb (by simp)
  | @cons a b l1 l2 hab htail ih =>
    intro y hy
    rcases List.mem_cons.mp hy with hy | hy
    · subst hy; exact ⟨a, List.mem_cons_self _ _, hab⟩
    · rcases ih y hy with ⟨x, hx, hxy⟩
      exact ⟨x, List.mem_cons_of_mem _ hx, hxy⟩

theorem mapExcept_mem_ok {α β : Type} {f : α → Except PSError β}
    {l : List α} {l2 : List β} (h : mapExcept f l = .ok l2) :
    ∀ a ∈ l, ∃ b, f a = .ok b := by
  intro a ha
  rcases forall₂_mem_left (mapExcept_ok_forall₂ h) a ha with ⟨b, _, hb⟩
  exact ⟨b, hb⟩

theorem mapExcept_mem_ok_right {α β : Type} {f : α → Except PSError β}
    {l : List α} {l2 : List β} (h : mapExcept f l = .ok l2) :
    ∀ b ∈ l2, ∃ a, a ∈ l ∧ f a = .ok b := by
  intro b hb
  rcases forall₂_mem_right (mapExcept_ok_forall₂ h) b hb with ⟨a, ha, hab⟩
  exact ⟨a, ha, hab⟩

theorem mapExcept_ok_of_forall {α β : Type} {f : α → Except PSError β} :
    ∀ {l : List α}, (∀ a ∈ l, ∃ b, f a = .ok b) →
      ∃ l2, mapExcept f l = .ok l2 := by
  intro l
  induction l with
  | nil => intro _; exact ⟨[], rfl⟩
  | cons a as ih =>
    intro h
    rcases h a (List.mem_cons_self _ _) with ⟨b, hb⟩
    rcases ih (fun x hx => h x (List.mem_cons_of_mem _ hx)) with ⟨bs, hbs⟩
    exact ⟨b :: bs, by simp only [mapExcept, hb, hbs]⟩

theorem mapExcept_error_unique {α β : Type} {f : α → Except PSError β}
    {e : PSError} :
    ∀ {l : List α}, (∀ a ∈ l, f a = .error e ∨ ∃ b, f a = .ok b) →
      (∃ a ∈ l, f a = .error e) → mapExcept f l = .error e := by
  intro l
  induction l with
  | nil => intro _ hex; exact absurd hex (by simp)
  | cons a as ih =>
    intro hall hex
    rcases hall a (List.mem_cons_self _ _) with ha | ⟨b, hb⟩
    · simp only [mapExcept, ha]
    · simp only [mapExcept, hb]
      have hex2 : ∃ x ∈ as, f x = .error e := by
        rcases hex with ⟨x, hx, hfx⟩
        rcases List.mem_cons.mp hx with hx | hx
        · subst hx; rw [hb] at hfx; exact absurd hfx (by simp)
        · exact ⟨x, hx, hfx⟩
      rw [ih (fun x hx => hall x (List.mem_cons_of_mem _ hx)) hex2]

theorem mapExcept_error_shape {α β : Type} {f : α → Except PSError β}
    {e0 : PSError} :
    ∀ {l : List α}, (∀ a ∈ l, f a = .error e0 ∨ ∃ b, f a = .ok b) →
      ∀ {e : PSError}, mapExcept f l = .error e → e = e0 := by
  intro l
  induction l with
  | nil => intro _ e h; exact absurd h (by simp [mapExcept])
  | cons a as ih =>
    intro hall e h
    rcases hall a (List.mem_cons_self _ _) with ha | ⟨b, hb⟩
    · simp only [mapExcept, ha] at h
      exact (Except.error.inj h.symm)
    · simp only [mapExcept, hb] at h
      cases hrest : mapExcept f as with
      | error e2 =>
        rw [hrest] at h
        cases h
        exact ih (fun x hx => hall x (List.mem_cons_of_mem _ hx)) hrest
      | ok bs =>
        rw [hrest] at h
        exact absurd h (by simp)

theorem forall₂_compose {α β γ : Type} {R : α → β → Prop} {S : β → γ → Prop}
    {T : α → γ → Prop} (hT : ∀ a b c, R a b → S b c → T a c) :
    ∀ {l1 : List α} {l2 : List β} {l3 : List γ},
      List.Forall₂ R l1 l2 → List.Forall₂ S l2 l3 → List.Forall₂ T l1 l3 := by
  intro l1 l2 l3 h12
  induction h12 generalizing l3 with
  | nil =>
    intro h23
    cases h23
    exact List.Forall₂.nil
  | cons hab _ ih =>
    intro h23
    cases h23 with
    | cons hbc h23 => exact List.Forall₂.cons (hT _ _ _ hab hbc) (ih h23)

theorem forall₂_filter_length {α β : Type} {R : α → β → Prop}
    {P : α → Bool} {Q : β → Bool} (hPQ : ∀ a b, R a b → P a = Q b) :
    ∀ {l : List α} {l2 : List β}, List.Forall₂ R l l2 →
      (l.filter P).length = (l2.filter Q).length := by
  intro l l2 h
  induction h with
  | nil => rfl
  | @cons a b l1 l2 hab htail ih =>
    by_cases hp : P a
    · have hq : Q b = true := by rw [← hPQ a b hab]; exact hp
      simp [List.filter_cons, hp, hq, ih]
    · have hq : Q b = false := by rw [← hPQ a b hab]; simpa using hp
      simp [List.filter_cons, hp, hq, ih]

theorem forall₂_filter_map_sum {α β : Type} {R : α → β → Prop}
    {P : α → Bool} {Q : β → Bool} {g : α → ℚ} {f : β → ℚ}
    (h : ∀ a b, R a b → P a = Q b ∧ f b = g a) :
    ∀ {l : List α} {l2 : List β}, List.Forall₂ R l l2 →
      ((l2.filter Q).map f).sum = ((l.filter P).map g).sum := by
  intro l l2 hl
  induction hl with
  | nil => rfl
  | @cons a b l1 l2 hab htail ih =>
    by_cases hp : P a
    · have hq : Q b = true := by rw [← (h a b hab).1]; exact hp
      simp [List.filter_cons, hp, hq, ih, (h a b hab).2]
    · have hq : Q b = false := by rw [← (h a b hab).1]; simpa using hp
      simp [List.filter_cons, hp, hq, ih]

theorem lastIdxWhere_lt {α : Type} {P : α → Bool} :
    ∀ {l : List α} {n j : Nat}, lastIdxWhere P n l = some j →
      j < n + l.length := by
  intro l
  induction l with
  | nil => intro n j h; exact absurd h (by simp [lastIdxWhere])
  | cons a as ih =>
    intro n j h
    simp only [lastIdxWhere] at h
    cases hrest : lastIdxWhere P (n + 1) as with
    | some k =>
      rw [hrest] at h
      cases h
      have := ih hrest
      simp only [List.length_cons]
      omega
    | none =>
      rw [hrest] at h
      by_cases hp : P a
      · rw [if_pos hp] at h
        cases h
        simp only [List.length_cons]
        omega
      · rw [if_neg hp] at h
        exact absurd h (by simp)

theorem lastIdxWhere_none {α : Type} {P : α → Bool} :
    ∀ {l : List α}, (∀ a ∈ l, P a = false) → ∀ (n : Nat),
      lastIdxWhere P n l = none := by
  intro l
  induction l with
  | nil => intro _ n; rfl
  | cons a as ih =>
    intro hall n
    simp only [lastIdxWhere, ih (fun x hx => hall x (List.mem_cons_of_mem _ hx)),
      hall a (List.mem_cons_self _ _)]
    simp

theorem lastIdxWhere_last {α : Type} {P : α → Bool} :
    ∀ {l : List α} {i : Nat} (hi : i < l.length), P l[i] = true →
      (∀ j (hj : j < l.length), i < j → P l[j] = false) →
      ∀ n, lastIdxWhere P n l = some (n + i) := by
  intro l
  induction l with
  | nil => intro i hi; exact absurd hi (by simp)
  | cons a as ih =>
    intro i hi hp hafter n
    cases i with
    | zero =>
      have hall : ∀ x ∈ as, P x = false := by
        intro x hx
        rcases List.mem_iff_getElem.mp hx with ⟨k, hk, rfl⟩
        have := hafter (k + 1) (by simpa using Nat.succ_lt_succ hk) (Nat.succ_pos k)
        simpa using this
      simp only [lastIdxWhere, lastIdxWhere_none hall (n + 1)]
      rw [if_pos (by simpa using hp)]
      simp
    | succ k =>
      have hk : k < as.length := by simpa using Nat.lt_of_succ_lt_succ hi
      have hrec := ih hk (by simpa using hp)
        (fun j hj hlt => by
          have := hafter (j + 1) (by simpa using Nat.succ_lt_succ hj)
            (Nat.succ_lt_succ hlt)
          simpa using this) (n + 1)
      simp only [lastIdxWhere, hrec, Option.some.injEq]
      omega

theorem filter_length_one_of_unique {α : Type} {P : α → Bool} :
    ∀ {l : List α} {i : Nat} (hi : i < l.length), P l[i] = true →
      (∀ j (hj : j < l.length), j ≠ i → P l[j] = false) →
      (l.filter P).length = 1 := by
  intro l
  induction l with
  | nil => intro i hi; exact absurd hi (by simp)
  | cons a as ih =>
    intro i hi hp hothers
    cases i with
    | zero =>
      have hall : ∀ x ∈ as, ¬ P x = true := by
        intro x hx
        rcases List.mem_iff_getElem.mp hx with ⟨k, hk, rfl⟩
        have := hothers (k + 1) (by simpa using Nat.succ_lt_succ hk) (Nat.succ_ne_zero k)
        simp only [List.getElem_cons_succ] at this
        simp [this]
      rw [List.filter_cons, if_pos (by simpa using hp),
        List.filter_eq_nil_iff.mpr hall]
      rfl
    | succ k =>
      have hk : k < as.length := by simpa using Nat.lt_of_succ_lt_succ hi
      have h0 : P a = false := by
        have := hothers 0 (by simp) (by omega)
        simpa using this
      rw [List.filter_cons, if_neg (by simp [h0])]
      exact ih hk (by simpa using hp)
        (fun j hj hne => by
          have := hothers (j + 1) (by simpa using Nat.succ_lt_succ hj) (by omega)
          simpa using this)

theorem buildBus_ok_spec {buses : List RTSBus} {bus : RTSBus} {b2 : PSBus}
    (h : buildBus buses bus = .ok b2) :
    area_load buses bus.area ≠ 0 ∧ b2.id = bus.bus_id ∧ b2.type = bus.bus_type ∧
    b2.area = bus.area ∧
    b2.area_load_share = bus.mw_load / area_load buses bus.area ∧
    b2.is_slack = (bus.bus_type == "Ref") := by
  by_cases hz : area_load buses bus.area = 0
  · rw [buildBus, if_pos hz] at h
    exact absurd h (by simp)
  · rw [buildBus, if_neg hz] at h
    cases h
    exact ⟨hz, rfl, rfl, rfl, rfl, rfl⟩

theorem buildBus_error_shape (buses : List RTSBus) (bus : RTSBus) :
    buildBus buses bus = .error .zeroDivision ∨ ∃ b2, buildBus buses bus = .ok b2 := by
  by_cases hz : area_load buses bus.area = 0
  · exact Or.inl (by rw [buildBus, if_pos hz])
  · exact Or.inr ⟨_, by rw [buildBus, if_neg hz]⟩

theorem buildBus_ok_of_nonzero {buses : List RTSBus} {bus : RTSBus}
    (hz : area_load buses bus.area ≠ 0) : ∃ b2, buildBus buses bus = .ok b2 :=
  ⟨_, by rw [buildBus, if_neg hz]⟩

theorem buildBus_error_of_zero {buses : List RTSBus} {bus : RTSBus}
    (hz : area_load buses bus.area = 0) :
    buildBus buses bus = .error .zeroDivision := by
  rw [buildBus, if_pos hz]

theorem buildGen_ok_spec {basemva : ℚ} {buses : List RTSBus} {gen : RTSGen}
    {g2 : PSGen} (h : buildGen basemva buses gen = .ok g2) :
    basemva ≠ 0 ∧ busIndexOf buses gen.bus_id = some g2.bus ∧
    g2.pmax_mw = gen.pmax_mw ∧ g2.pmax_pu = gen.pmax_mw / basemva ∧
    g2.pmin_mw = gen.pmin_mw ∧ g2.pmin_pu = gen.pmin_mw / basemva ∧
    g2.ramp_rate_mw_min = gen.ramp_rate_mw_per_min ∧
    g2.ramp_rate_pu_min = gen.ramp_rate_mw_per_min / basemva := by
  cases hidx : busIndexOf buses gen.bus_id with
  | none =>
    simp only [buildGen, hidx] at h
    exact absurd h (by simp)
  | some bidx =>
    simp only [buildGen, hidx] at h
    by_cases hb : basemva = 0
    · rw [if_pos hb] at h
      exact absurd h (by simp)
    · rw [if_neg hb] at h
      cases h
      exact ⟨hb, rfl, rfl, rfl, rfl, rfl, rfl, rfl⟩

theorem buildGen_ok_of_some {basemva : ℚ} {buses : List RTSBus} {gen : RTSGen}
    {bidx : Nat} (hidx : busIndexOf buses gen.bus_id = some bidx)
    (hb : basemva ≠ 0) : ∃ g2, buildGen basemva buses gen = .ok g2 := by
  cases hg : buildGen basemva buses gen with
  | ok g2 => exact ⟨g2, rfl⟩
  | error e =>
    simp only [buildGen, hidx, if_neg hb] at hg
    exact absurd hg (by simp)

theorem buildGen_error_of_none {basemva : ℚ} {buses : List RTSBus} {gen : RTSGen}
    (hidx : busIndexOf buses gen.bus_id = none) :
    buildGen basemva buses gen = .error .keyError := by
  simp only [buildGen, hidx]

theorem buildGen_shape {basemva : ℚ} (hb : basemva ≠ 0) (buses : List RTSBus)
    (gen : RTSGen) :
    buildGen basemva buses gen = .error .keyError ∨
      ∃ g2, buildGen basemva buses gen = .ok g2 := by
  cases hidx : busIndexOf buses gen.bus_id with
  | none => exact Or.inl (buildGen_error_of_none hidx)
  | some bidx => exact Or.inr (buildGen_ok_of_some hidx hb)

theorem buildBranch_ok_spec {basemva : ℚ} {buses : List RTSBus}
    {branch : RTSBranch} {br2 : PSBranch}
    (h : buildBranch basemva buses branch = .ok br2) :
    basemva ≠ 0 ∧ busIndexOf buses branch.from_bus = some br2.from_bus ∧
    busIndexOf buses branch.to_bus = some br2.to_bus ∧
    br2.cap_mw = branch.cont_rating ∧
    br2.cap_pu = branch.cont_rating / basemva ∧
    br2.emergency_cap_mw = branch.ste_rating ∧
    br2.emergency_cap_pu = branch.ste_rating / basemva := by
  cases hf : busIndexOf buses branch.from_bus with
  | none =>
    simp only [buildBranch, hf] at h
    exact absurd h (by simp)
  | some fidx =>
    cases ht : busIndexOf buses branch.to_bus with
    | none =>
      simp only [buildBranch, hf, ht] at h
      exact absurd h (by simp)
    | some tidx =>
      simp only [buildBranch, hf, ht] at h
      by_cases hb : basemva = 0
      · rw [if_pos hb] at h
        exact absurd h (by simp)
      · rw [if_neg hb] at h
        cases h
        exact ⟨hb, rfl, rfl, rfl, rfl, rfl, rfl⟩

theorem buildBranch_ok_of_some {basemva : ℚ} {buses : List RTSBus}
    {branch : RTSBranch} {fidx tidx : Nat}
    (hf : busIndexOf buses branch.from_bus = some fidx)
    (ht : busIndexOf buses branch.to_bus = some tidx) (hb : basemva ≠ 0) :
    ∃ br2, buildBranch basemva buses branch = .ok br2 := by
  cases hbr : buildBranch basemva buses branch with
  | ok br2 => exact ⟨br2, rfl⟩
  | error e =>
    simp only [buildBranch, hf, ht, if_neg hb] at hbr
    exact absurd hbr (by simp)

theorem buildBranch_error_of_none {basemva : ℚ} {buses : List RTSBus}
    {branch : RTSBranch}
    (h : busIndexOf buses branch.from_bus = none ∨
      busIndexOf buses branch.to_bus = none) :
    buildBranch basemva buses branch = .error .keyError := by
  rcases h with hf | ht
  · simp only [buildBranch, hf]
  · cases hf : busIndexOf buses branch.from_bus with
    | none => simp only [buildBranch, hf]
    | some fidx => simp only [buildBranch, hf, ht]

theorem buildBranch_shape {basemva : ℚ} (hb : basemva ≠ 0)
    (buses : List RTSBus) (branch : RTSBranch) :
    buildBranch basemva buses branch = .error .keyError ∨
      ∃ br2, buildBranch basemva buses branch = .ok br2 := by
  cases hf : busIndexOf buses branch.from_bus with
  | none => exact Or.inl (buildBranch_error_of_none (Or.inl hf))
  | some fidx =>
    cases ht : busIndexOf buses branch.to_bus with
    | none => exact Or.inl (buildBranch_error_of_none (Or.inr ht))
    | some tidx => exact Or.inr (buildBranch_ok_of_some hf ht hb)

theorem relink_forall₂ (gendata : List PSGen) (branchdata : List PSBranch) :
    ∀ (l : List PSBus) (j : Nat),
      List.Forall₂ (fun bus bus2 => bus2.id = bus.id ∧ bus2.type = bus.type ∧
          bus2.area = bus.area ∧ bus2.area_load_share = bus.area_load_share ∧
          bus2.is_slack = bus.is_slack)
        l (relinkBuses gendata branchdata j l) := by
  intro l
  induction l with
  | nil => intro j; exact List.Forall₂.nil
  | cons a as ih =>
    intro j
    exact List.Forall₂.cons (by simp [relinkBuses]) (by simpa [relinkBuses] using ih (j + 1))

theorem busIndexOf_lt {buses : List RTSBus} {bid : Int} {j : Nat}
    (h : busIndexOf buses bid = some j) : j < buses.length := by
  simpa using lastIdxWhere_lt h

theorem create_ok_spec {rts : RTSData} {ps : PSData}
    (h : create_ps_data_from_rts_data rts = .ok ps) :
    ps.basemva = rts.basemva ∧ ps.slackbus = slackbus_of rts.bus ∧
    ∃ busdata0,
      mapExcept (buildBus rts.bus) rts.bus = .ok busdata0 ∧
      mapExcept (buildGen rts.basemva rts.bus) rts.gen = .ok ps.gendata ∧
      mapExcept (buildBranch rts.basemva rts.bus) rts.branch = .ok ps.branchdata ∧
      ps.busdata = relinkBuses ps.gendata ps.branchdata 0 busdata0 := by
  unfold create_ps_data_from_rts_data at h
  cases hb : mapExcept (buildBus rts.bus) rts.bus with
  | error e => rw [hb] at h; exact absurd h (by simp)
  | ok busdata0 =>
    rw [hb] at h
    cases hg : mapExcept (buildGen rts.basemva rts.bus) rts.gen with
    | error e => rw [hg] at h; exact absurd h (by simp)
    | ok gendata =>
      rw [hg] at h
      cases hbr : mapExcept (buildBranch rts.basemva rts.bus) rts.branch with
      | error e => rw [hbr] at h; exact absurd h (by simp)
      | ok branchdata =>
        rw [hbr] at h
        simp only [Except.ok.injEq] at h
        subst h
        exact ⟨rfl, rfl, busdata0, rfl, rfl, rfl, rfl⟩

theorem create_error_bus {rts : RTSData} {e : PSError}
    (h : mapExcept (buildBus rts.bus) rts.bus = .error e) :
    create_ps_data_from_rts_data rts = .error e := by
  simp only [create_ps_data_from_rts_data, h]

theorem create_error_gen {rts : RTSData} {busdata0 : List PSBus} {e : PSError}
    (hb : mapExcept (buildBus rts.bus) rts.bus = .ok busdata0)
    (h : mapExcept (buildGen rts.basemva rts.bus) rts.gen = .error e) :
    create_ps_data_from_rts_data rts = .error e := by
  simp only [create_ps_data_from_rts_data, hb, h]

theorem create_error_branch {rts : RTSData} {busdata0 : List PSBus}
    {gendata : List PSGen} {e : PSError}
    (hb : mapExcept (buildBus rts.bus) rts.bus = .ok busdata0)
    (hg : mapExcept (buildGen rts.basemva rts.bus) rts.gen = .ok gendata)
    (h : mapExcept (buildBranch rts.basemva rts.bus) rts.branch = .error e) :
    create_ps_data_from_rts_data rts = .error e := by
  simp only [create_ps_data_from_rts_data, hb, hg, h]

theorem create_busdata_forall₂ {rts : RTSData} {ps : PSData}
    (h : create_ps_data_from_rts_data rts = .ok ps) :
    List.Forall₂ (fun bus b2 => b2.id = bus.bus_id ∧ b2.type = bus.bus_type ∧
      b2.area = bus.area ∧
      b2.area_load_share = bus.mw_load / area_load rts.bus bus.area ∧
      b2.is_slack = (bus.bus_type == "Ref") ∧ area_load rts.bus bus.area ≠ 0)
      rts.bus ps.busdata := by
  rcases create_ok_spec h with ⟨_, _, busdata0, hb, _, _, hbus⟩
  rw [hbus]
  refine forall₂_compose ?_ (mapExcept_ok_forall₂ hb)
    (relink_forall₂ ps.gendata ps.branchdata busdata0 0)
  intro bus b0 b2 hR hS
  rcases buildBus_ok_spec hR with ⟨hz, hid, hty, har, hsh, hsl⟩
  rcases hS with ⟨hid2, hty2, har2, hsh2, hsl2⟩
  exact ⟨hid2.trans hid, hty2.trans hty, har2.trans har, hsh2.trans hsh,
    hsl2.trans hsl, hz⟩

/-! ### Concrete datasets used to instantiate the claims -/

/-- A well-formed two-bus, one-generator, one-branch dataset; the branch has
`cont_rating = 150` under `basemva = 100`. -/
def RTS_C1 : RTSData :=
  { bus := [⟨101, "Ref", 1, 0, 0, 5⟩, ⟨102, "PQ", 1, 0, 0, 15⟩]
    gen := [{ gen_uid := "101_CT_1", unit_type := "CT", fuel := "Oil",
              bus_id := 101, min_down_time_hr := 1, min_up_time_hr := 1,
              pmax_mw := 200, pmin_mw := 50, ramp_rate_mw_per_min := 3,
              output_pct_0 := 0, output_pct_1 := 3/10, output_pct_2 := 6/10,
              output_pct_3 := 1, hr_avg_0 := 10, hr_incr_1 := 9,
              hr_incr_2 := 10, hr_incr_3 := 11,
              fuel_price_dollar_per_mmbtu := 2 }]
    branch := [⟨"A1", 101, 102, 1/100, 1/10, 0, 150, 220⟩]
    basemva := 100 }

/-- The `PSData` that `create_ps_data_from_rts_data` returns on `RTS_C1`. -/
def PS_C1 : PSData := (create_ps_data_from_rts_data RTS_C1).toOption.getD default

/-! ### The claims -/

/-- C1: in any `PSData` returned by `create_ps_data_from_rts_data`, every
generator's per-unit fields are the exact quotients of its megawatt fields by
the dataset's base power (`pmax_pu = pmax_mw / basemva`, `pmin_pu = pmin_mw /
basemva`, `ramp_rate_pu_min = ramp_rate_mw_min / basemva`), every branch's
capacities likewise (`cap_pu = cap_mw / basemva`, `emergency_cap_pu =
emergency_cap_mw / basemva`); in particular a branch with `cont_rating = 150`
under `basemva = 100` has `cap_pu = 3/2`. -/
theorem C1_perunit_exact_division (rts : RTSData) (ps : PSData)
    (h : create_ps_data_from_rts_data rts = .ok ps) :
    (∀ g ∈ ps.gendata,
      g.pmax_pu = g.pmax_mw / ps.basemva ∧
      g.pmin_pu = g.pmin_mw / ps.basemva ∧
      g.ramp_rate_pu_min = g.ramp_rate_mw_min / ps.basemva) ∧
    (∀ br ∈ ps.branchdata,
      br.cap_pu = br.cap_mw / ps.basemva ∧
      br.emergency_cap_pu = br.emergency_cap_mw / ps.basemva) ∧
    (∀ br ∈ ps.branchdata, br.cap_mw = 150 → ps.basemva = 100 →
      br.cap_pu = 3 / 2) := by
  rcases create_ok_spec h with ⟨hmva, _, busdata0, hb, hg, hbr, _⟩
  have hbranch : ∀ br ∈ ps.branchdata,
      br.cap_pu = br.cap_mw / ps.basemva ∧
      br.emergency_cap_pu = br.emergency_cap_mw / ps.basemva := by
    intro br hmem
    rcases mapExcept_mem_ok_right hbr br hmem with ⟨branch, _, hok⟩
    rcases buildBranch_ok_spec hok with ⟨_, _, _, hcm, hcp, hem, hep⟩
    rw [hmva, hcm, hcp, hem, hep]
    exact ⟨rfl, rfl⟩
  refine ⟨?_, hbranch, ?_⟩
  · intro g hmem
    rcases mapExcept_mem_ok_right hg g hmem with ⟨gen, _, hok⟩
    rcases buildGen_ok_spec hok with ⟨_, _, hxm, hxp, hnm, hnp, hrm, hrp⟩
    rw [hmva, hxm, hxp, hnm, hnp, hrm, hrp]
    exact ⟨rfl, rfl, rfl⟩
  · intro br hmem h150 h100
    rw [(hbranch br hmem).1, h150, h100]
    norm_num

/-- Witness for C1 at the concrete dataset `RTS_C1`. -/
theorem C1_perunit_exact_division_witness :
    create_ps_data_from_rts_data RTS_C1 = .ok PS_C1 ∧
    ((∀ g ∈ PS_C1.gendata,
      g.pmax_pu = g.pmax_mw / PS_C1.basemva ∧
      g.pmin_pu = g.pmin_mw / PS_C1.basemva ∧
      g.ramp_rate_pu_min = g.ramp_rate_mw_min / PS_C1.basemva) ∧
    (∀ br ∈ PS_C1.branchdata,
      br.cap_pu = br.cap_mw / PS_C1.basemva ∧
      br.emergency_cap_pu = br.emergency_cap_mw / PS_C1.basemva) ∧
    (∀ br ∈ PS_C1.branchdata, br.cap_mw = 150 → PS_C1.basemva = 100 →
      br.cap_pu = 3 / 2)) :=
  ⟨by norm_num [PS_C1, RTS_C1, create_ps_data_from_rts_data, mapExcept,
      buildBus, buildGen, buildBranch, area_load, busIndexOf, lastIdxWhere,
      Except.toOption],
   C1_perunit_exact_division RTS_C1 PS_C1
    (by norm_num [PS_C1, RTS_C1, create_ps_data_from_rts_data, mapExcept,
      buildBus, buildGen, buildBranch, area_load, busIndexOf, lastIdxWhere,
      Except.toOption])⟩

/-- A generator record referencing the absent bus id 999. -/
def G_C5 : RTSGen :=
  { gen_uid := "999_CT_1", unit_type := "CT", fuel := "Oil",
    bus_id := 999, min_down_time_hr := 1, min_up_time_hr := 1,
    pmax_mw := 200, pmin_mw := 50, ramp_rate_mw_per_min := 3,
    output_pct_0 := 0, output_pct_1 := 3/10, output_pct_2 := 6/10,
    output_pct_3 := 1, hr_avg_0 := 10, hr_incr_1 := 9,
    hr_incr_2 := 10, hr_incr_3 := 11,
    fuel_price_dollar_per_mmbtu := 2 }

/-- A dataset whose only generator references the absent bus id 999 and whose
only bus sits in an area with zero total load: the bus loop fails with
`ZeroDivisionError` before the generator lookup is ever attempted. -/
def RTS_C5X : RTSData :=
  { bus := [⟨301, "Ref", 1, 0, 0, 0⟩]
    gen := [G_C5]
    branch := []
    basemva := 100 }

/-- A dataset with nonzero area loads whose only generator references the
absent bus id 999. -/
def RTS_C5W : RTSData :=
  { bus := [⟨311, "Ref", 1, 0, 0, 5⟩]
    gen := [G_C5]
    branch := []
    basemva := 100 }

/-- Counterexample to C5 as stated: `RTS_C5X` contains a generator whose
`bus_id` is absent from the bus table, yet the construction does not raise a
key-lookup failure — the unguarded area-share division fails first, so the
raised error is `zeroDivision`. -/
theorem C5_dangling_reference_counterexample :
    (∃ gen ∈ RTS_C5X.gen, busIndexOf RTS_C5X.bus gen.bus_id = none) ∧
    create_ps_data_from_rts_data RTS_C5X = .error .zeroDivision ∧
    create_ps_data_from_rts_data RTS_C5X ≠ .error .keyError := by
  have h : create_ps_data_from_rts_data RTS_C5X = .error .zeroDivision := by
    norm_num [RTS_C5X, G_C5, create_ps_data_from_rts_data, mapExcept, buildBus,
      area_load]
  refine ⟨⟨G_C5, by simp [RTS_C5X], ?_⟩, h, by rw [h]; simp⟩
  decide

/-- C5 (amended): provided construction reaches the lookups — the base power
is nonzero and every area occurring in the bus table has nonzero total load —
a dataset containing a generator or branch that references an absent bus id
makes `create_ps_data_from_rts_data` fail with a key-lookup error, returning
no `PSData`; conversely, in any returned `PSData` every generator's and
branch's bus position is a valid index into the bus collection. -/
theorem C5_dangling_reference_fatal (rts : RTSData) :
    (rts.basemva ≠ 0 →
      (∀ bus ∈ rts.bus, area_load rts.bus bus.area ≠ 0) →
      ((∃ gen ∈ rts.gen, busIndexOf rts.bus gen.bus_id = none) ∨
        (∃ branch ∈ rts.branch, busIndexOf rts.bus branch.from_bus = none ∨
          busIndexOf rts.bus branch.to_bus = none)) →
      create_ps_data_from_rts_data rts = .error .keyError) ∧
    (∀ ps, create_ps_data_from_rts_data rts = .ok ps →
      (∀ g ∈ ps.gendata, g.bus < ps.busdata.length) ∧
      (∀ br ∈ ps.branchdata, br.from_bus < ps.busdata.length ∧
        br.to_bus < ps.busdata.length)) := by
  constructor
  · intro hmva hA hdangling
    rcases mapExcept_ok_of_forall
      (fun bus hmem => buildBus_ok_of_nonzero (hA bus hmem)) with ⟨busdata0, hb⟩
    rcases hdangling with ⟨gen, hgmem, hgnone⟩ | ⟨branch, hbmem, hbnone⟩
    · exact create_error_gen hb (mapExcept_error_unique
        (fun a _ => buildGen_shape hmva rts.bus a)
        ⟨gen, hgmem, buildGen_error_of_none hgnone⟩)
    · cases hgstage : mapExcept (buildGen rts.basemva rts.bus) rts.gen with
      | error e =>
        have he : e = PSError.keyError :=
          mapExcept_error_shape (fun a _ => buildGen_shape hmva rts.bus a) hgstage
        subst he
        exact create_error_gen hb hgstage
      | ok gendata =>
        exact create_error_branch hb hgstage (mapExcept_error_unique
          (fun a _ => buildBranch_shape hmva rts.bus a)
          ⟨branch, hbmem, buildBranch_error_of_none hbnone⟩)
  · intro ps h
    rcases create_ok_spec h with ⟨_, _, busdata0, hb, hg, hbr, _⟩
    have hlen : ps.busdata.length = rts.bus.length :=
      ((create_busdata_forall₂ h).length_eq).symm
    constructor
    · intro g hmem
      rcases mapExcept_mem_ok_right hg g hmem with ⟨gen, _, hok⟩
      have := busIndexOf_lt (buildGen_ok_spec hok).2.1
      omega
    · intro br hmem
      rcases mapExcept_mem_ok_right hbr br hmem with ⟨branch, _, hok⟩
      have hfrom := busIndexOf_lt (buildBranch_ok_spec hok).2.1
      have hto := busIndexOf_lt (buildBranch_ok_spec hok).2.2.1
      omega

/-- Witness for the amended C5 at `RTS_C5W` (dangling generator, otherwise
well-formed) and, for the converse part, at `RTS_C1`. -/
theorem C5_dangling_reference_fatal_witness :
    create_ps_data_from_rts_data RTS_C5W = .error .keyError ∧
    ((∀ g ∈ PS_C1.gendata, g.bus < PS_C1.busdata.length) ∧
      (∀ br ∈ PS_C1.branchdata, br.from_bus < PS_C1.busdata.length ∧
        br.to_bus < PS_C1.busdata.length)) :=
  ⟨(C5_dangling_reference_fatal RTS_C5W).1 (by norm_num [RTS_C5W])
    (by intro bus hmem; fin_cases hmem; norm_num [RTS_C5W, area_load])
    (Or.inl ⟨G_C5, by simp [RTS_C5W], by decide⟩),
   (C5_dangling_reference_fatal RTS_C1).2 PS_C1
    (by norm_num [PS_C1, RTS_C1, create_ps_data_from_rts_data, mapExcept,
      buildBus, buildGen, buildBranch, area_load, busIndexOf, lastIdxWhere,
      Except.toOption])⟩

/-- A generator record referencing the absent bus id 998, with integral cost
fields. -/
def G_C9 : RTSGen :=
  { gen_uid := "998_CT_1", unit_type := "CT", fuel := "Oil",
    bus_id := 998, min_down_time_hr := 1, min_up_time_hr := 1,
    pmax_mw := 100, pmin_mw := 20, ramp_rate_mw_per_min := 2,
    output_pct_0 := 0, output_pct_1 := 1, output_pct_2 := 2,
    output_pct_3 := 3, hr_avg_0 := 10, hr_incr_1 := 9,
    hr_incr_2 := 10, hr_incr_3 := 11,
    fuel_price_dollar_per_mmbtu := 2 }

/-- A dataset with no `"Ref"` bus whose only generator dangles: construction
fails, so no `PSData` is returned at all. -/
def RTS_C9X : RTSData :=
  { bus := [⟨401, "PQ", 1, 0, 0, 5⟩]
    gen := [G_C9]
    branch := []
    basemva := 100 }

/-- A well-formed dataset with no `"Ref"` bus. -/
def RTS_C9W : RTSData :=
  { bus := [⟨411, "PQ", 1, 0, 0, 5⟩, ⟨412, "PV", 2, 0, 0, 3⟩]
    gen := []
    branch := []
    basemva := 100 }

/-- Counterexample to C9 as stated: `RTS_C9X` has no bus of type `"Ref"`,
yet `create_ps_data_from_rts_data` does not complete — its dangling generator
raises a key-lookup failure, so no `PSData` is returned.  Completing without
error additionally requires the dataset to be otherwise well-formed. -/
theorem C9_no_ref_bus_counterexample :
    (∀ bus ∈ RTS_C9X.bus, bus.bus_type ≠ "Ref") ∧
    create_ps_data_from_rts_data RTS_C9X = .error .keyError := by
  constructor
  · decide
  · norm_num [RTS_C9X, G_C9, create_ps_data_from_rts_data, mapExcept,
      buildBus, buildGen, area_load, busIndexOf, lastIdxWhere]

/-- C9 (amended): on a dataset that is otherwise well-formed — every area
total nonzero, nonzero base power, all generator and branch bus references
resolvable — but in which no bus row has `bus_type = "Ref"`,
`create_ps_data_from_rts_data` completes without error, every bus of the
result has `is_slack = false`, and the `slackbus` field is `none`; the
missing reference bus is neither detected nor reported. -/
theorem C9_no_ref_bus_silent (rts : RTSData)
    (hA : ∀ bus ∈ rts.bus, area_load rts.bus bus.area ≠ 0)
    (hmva : rts.basemva ≠ 0)
    (hgen : ∀ gen ∈ rts.gen, busIndexOf rts.bus gen.bus_id ≠ none)
    (hbranch : ∀ branch ∈ rts.branch,
      busIndexOf rts.bus branch.from_bus ≠ none ∧
      busIndexOf rts.bus branch.to_bus ≠ none)
    (hnoref : ∀ bus ∈ rts.bus, bus.bus_type ≠ "Ref") :
    (create_ps_data_from_rts_data rts).toOption.isSome = true ∧
    (∀ ps, create_ps_data_from_rts_data rts = .ok ps →
      ps.slackbus = none ∧ ∀ b2 ∈ ps.busdata, b2.is_slack = false) := by
  have hslack : slackbus_of rts.bus = none := by
    refine lastIdxWhere_none ?_ 0
    intro bus hmem
    exact beq_eq_false_iff_ne.mpr (hnoref bus hmem)
  constructor
  · rcases mapExcept_ok_of_forall
      (fun bus hmem => buildBus_ok_of_nonzero (hA bus hmem)) with ⟨busdata0, hb⟩
    have hgok : ∀ gen ∈ rts.gen, ∃ g2,
        buildGen rts.basemva rts.bus gen = .ok g2 := by
      intro gen hmem
      rcases Option.ne_none_iff_exists'.mp (hgen gen hmem) with ⟨bidx, hbidx⟩
      exact buildGen_ok_of_some hbidx hmva
    rcases mapExcept_ok_of_forall hgok with ⟨gendata, hg⟩
    have hbrok : ∀ branch ∈ rts.branch, ∃ br2,
        buildBranch rts.basemva rts.bus branch = .ok br2 := by
      intro branch hmem
      rcases Option.ne_none_iff_exists'.mp (hbranch branch hmem).1 with ⟨fidx, hf⟩
      rcases Option.ne_none_iff_exists'.mp (hbranch branch hmem).2 with ⟨tidx, ht⟩
      exact buildBranch_ok_of_some hf ht hmva
    rcases mapExcept_ok_of_forall hbrok with ⟨branchdata, hbr⟩
    simp only [create_ps_data_from_rts_data, hb, hg, hbr, Except.toOption,
      Option.isSome]
  · intro ps h
    refine ⟨?_, ?_⟩
    · rw [(create_ok_spec h).2.1, hslack]
    · intro b2 hmem
      rcases forall₂_mem_right (create_busdata_forall₂ h) b2 hmem with
        ⟨bus, hbmem, ⟨_, _, _, _, hsl, _⟩⟩
      rw [hsl]
      exact beq_eq_false_iff_ne.mpr (hnoref bus hbmem)

/-- Witness for the amended C9 at the concrete dataset `RTS_C9W`. -/
theorem C9_no_ref_bus_silent_witness :
    (create_ps_data_from_rts_data RTS_C9W).toOption.isSome = true ∧
    (∀ ps, create_ps_data_from_rts_data RTS_C9W = .ok ps →
      ps.slackbus = none ∧ ∀ b2 ∈ ps.busdata, b2.is_slack = false) :=
  C9_no_ref_bus_silent RTS_C9W
    (by intro bus hmem; fin_cases hmem <;> norm_num [RTS_C9W, area_load])
    (by norm_num [RTS_C9W])
    (by simp [RTS_C9W])
    (by simp [RTS_C9W])
    (by decide)

/-- A dataset with a single bus whose area's total load is exactly zero. -/
def RTS_C10 : RTSData :=
  { bus := [⟨201, "PQ", 1, 0, 0, 0⟩]
    gen := []
    branch := []
    basemva := 100 }

/-- A well-formed dataset, used for the ok-side of the C10 witness. -/
def RTS_C10B : RTSData :=
  { bus := [⟨211, "Ref", 1, 0, 0, 7⟩]
    gen := []
    branch := []
    basemva := 100 }

/-- The `PSData` returned on `RTS_C10B`. -/
def PS_C10B : PSData :=
  (create_ps_data_from_rts_data RTS_C10B).toOption.getD default

/-- C10: the area-share division is unguarded: a dataset containing a bus
whose area's `mw_load` values sum to exactly zero makes
`create_ps_data_from_rts_data` fail with a division-by-zero error (no
`PSData` is returned); conversely any returned `PSData` presupposes that
every area occurring in the bus table has nonzero total load. -/
theorem C10_area_share_division_unguarded (rts : RTSData) :
    ((∃ bus ∈ rts.bus, area_load rts.bus bus.area = 0) →
      create_ps_data_from_rts_data rts = .error .zeroDivision) ∧
    (∀ ps, create_ps_data_from_rts_data rts = .ok ps →
      ∀ bus ∈ rts.bus, area_load rts.bus bus.area ≠ 0) := by
  constructor
  · intro hex
    rcases hex with ⟨bus, hmem, hz⟩
    exact create_error_bus (mapExcept_error_unique
      (fun a _ => buildBus_error_shape rts.bus a)
      ⟨bus, hmem, buildBus_error_of_zero hz⟩)
  · intro ps h bus hmem
    rcases create_ok_spec h with ⟨_, _, busdata0, hb, _, _, _⟩
    rcases mapExcept_mem_ok hb bus hmem with ⟨b2, hok⟩
    exact (buildBus_ok_spec hok).1

/-- Witness for C10: the zero-load dataset `RTS_C10` fails with
`zeroDivision`; on the well-formed `RTS_C10B` every area total is nonzero. -/
theorem C10_area_share_division_unguarded_witness :
    create_ps_data_from_rts_data RTS_C10 = .error .zeroDivision ∧
    (∀ bus ∈ RTS_C10B.bus, area_load RTS_C10B.bus bus.area ≠ 0) :=
  ⟨(C10_area_share_division_unguarded RTS_C10).1
    ⟨⟨201, "PQ", 1, 0, 0, 0⟩, by decide, by norm_num [RTS_C10, area_load]⟩,
   (C10_area_share_division_unguarded RTS_C10B).2 PS_C10B
    (by norm_num [PS_C10B, RTS_C10B, create_ps_data_from_rts_data, mapExcept,
      buildBus, area_load, Except.toOption])⟩

/-- A dataset with two buses in area 1 (loads 5 and 15) and one in area 2. -/
def RTS_C2 : RTSData :=
  { bus := [⟨501, "Ref", 1, 0, 0, 5⟩, ⟨502, "PQ", 1, 0, 0, 15⟩,
            ⟨503, "PQ", 2, 0, 0, 7⟩]
    gen := []
    branch := []
    basemva := 100 }

/-- The `PSData` returned on `RTS_C2`. -/
def PS_C2 : PSData := (create_ps_data_from_rts_data RTS_C2).toOption.getD default

/-- C2: whenever `create_ps_data_from_rts_data` returns a `PSData` (which
presupposes every occurring area has nonzero total load), the
`area_load_share` values of the buses of any area occurring in the input sum
to exactly 1, each share being the bus's `mw_load` divided by its area's
total load. -/
theorem C2_area_shares_sum_to_one (rts : RTSData) (ps : PSData)
    (h : create_ps_data_from_rts_data rts = .ok ps) (a : Int)
    (ha : ∃ bus ∈ rts.bus, bus.area = a) :
    ((ps.busdata.filter (fun b2 => b2.area == a)).map
      (fun b2 => b2.area_load_share)).sum = 1 := by
  have hF := create_busdata_forall₂ h
  rcases ha with ⟨bus0, hmem0, harea0⟩
  have hA : area_load rts.bus a ≠ 0 := by
    rcases forall₂_mem_left hF bus0 hmem0 with ⟨b2, _, ⟨_, _, _, _, _, hz⟩⟩
    rwa [harea0] at hz
  have hsum := forall₂_filter_map_sum
    (P := fun bus => bus.area == a) (Q := fun b2 => b2.area == a)
    (g := fun bus => bus.mw_load / area_load rts.bus bus.area)
    (f := fun b2 => b2.area_load_share)
    (fun bus b2 hR => ⟨by simp only [hR.2.2.1], hR.2.2.2.1⟩) hF
  rw [hsum]
  have hcongr : ((rts.bus.filter (fun bus => bus.area == a)).map
        (fun bus => bus.mw_load / area_load rts.bus bus.area)).sum
      = ((rts.bus.filter (fun bus => bus.area == a)).map
        (fun bus => bus.mw_load * (area_load rts.bus a)⁻¹)).sum := by
    refine congrArg List.sum (List.map_congr_left ?_)
    intro bus hmem
    have harea : bus.area = a := by
      have := (List.mem_filter.mp hmem).2
      simpa using this
    rw [harea, div_eq_mul_inv]
  rw [hcongr, List.sum_map_mul_right]
  exact mul_inv_cancel₀ hA

/-- Witness for C2 at `RTS_C2`, area 1. -/
theorem C2_area_shares_sum_to_one_witness :
    create_ps_data_from_rts_data RTS_C2 = .ok PS_C2 ∧
    ((PS_C2.busdata.filter (fun b2 => b2.area == 1)).map
      (fun b2 => b2.area_load_share)).sum = 1 :=
  ⟨by norm_num [PS_C2, RTS_C2, create_ps_data_from_rts_data, mapExcept,
      buildBus, area_load, Except.toOption],
   C2_area_shares_sum_to_one RTS_C2 PS_C2
    (by norm_num [PS_C2, RTS_C2, create_ps_data_from_rts_data, mapExcept,
      buildBus, area_load, Except.toOption])
    1 ⟨⟨501, "Ref", 1, 0, 0, 5⟩, by decide, by decide⟩⟩

/-- A dataset whose unique `"Ref"` bus sits at position 1 of three. -/
def RTS_C3 : RTSData :=
  { bus := [⟨601, "PQ", 1, 0, 0, 5⟩, ⟨602, "Ref", 1, 0, 0, 15⟩,
            ⟨603, "PQ", 1, 0, 0, 20⟩]
    gen := []
    branch := []
    basemva := 100 }

/-- The `PSData` returned on `RTS_C3`. -/
def PS_C3 : PSData := (create_ps_data_from_rts_data RTS_C3).toOption.getD default

/-- C3: in any returned `PSData` a bus's `is_slack` flag is true iff its type
field equals `"Ref"`; the recorded slack position is the position of the last
input bus of type `"Ref"` (last-wins); and when the `"Ref"` bus is unique,
exactly one output bus has `is_slack = true`, namely the one at that input
position, and `slackbus` is that dense position. -/
theorem C3_slack_bus_selection (rts : RTSData) (ps : PSData)
    (h : create_ps_data_from_rts_data rts = .ok ps)
    (i : Nat) (hi : i < rts.bus.length)
    (href : rts.bus[i].bus_type = "Ref")
    (hlast : ∀ j (hj : j < rts.bus.length), i < j →
      rts.bus[j].bus_type ≠ "Ref") :
    ps.slackbus = some i ∧
    (∀ b2 ∈ ps.busdata, b2.is_slack = (b2.type == "Ref")) ∧
    ((∀ j (hj : j < rts.bus.length), j ≠ i → rts.bus[j].bus_type ≠ "Ref") →
      (ps.busdata.filter (fun b2 => b2.is_slack)).length = 1 ∧
      ∀ (hi2 : i < ps.busdata.length), ps.busdata[i].is_slack = true) := by
  have hF := create_busdata_forall₂ h
  refine ⟨?_, ?_, ?_⟩
  · rw [(create_ok_spec h).2.1, slackbus_of]
    rw [lastIdxWhere_last (P := fun bus => bus.bus_type == "Ref") hi
      (beq_iff_eq.mpr href)
      (fun j hj hlt => beq_eq_false_iff_ne.mpr (hlast j hj hlt)) 0]
    simp
  · intro b2 hmem
    rcases forall₂_mem_right hF b2 hmem with ⟨bus, _, ⟨_, hty, _, _, hsl, _⟩⟩
    rw [hsl, hty]
  · intro huniq
    constructor
    · have hcnt : (rts.bus.filter (fun bus => bus.bus_type == "Ref")).length = 1 :=
        filter_length_one_of_unique hi (beq_iff_eq.mpr href)
          (fun j hj hne => beq_eq_false_iff_ne.mpr (huniq j hj hne))
      have hlen := forall₂_filter_length
        (P := fun bus => bus.bus_type == "Ref") (Q := fun b2 => b2.is_slack)
        (fun bus b2 hR => by simp only [hR.2.2.2.2.1]) hF
      rw [← hlen]
      exact hcnt
    · intro hi2
      have hR := (List.forall₂_iff_get.mp hF).2 i hi hi2
      simp only [List.get_eq_getElem] at hR
      rw [hR.2.2.2.2.1]
      exact beq_iff_eq.mpr href

/-- Witness for C3 at `RTS_C3` (unique `"Ref"` bus at position 1). -/
theorem C3_slack_bus_selection_witness :
    create_ps_data_from_rts_data RTS_C3 = .ok PS_C3 ∧
    PS_C3.slackbus = some 1 ∧
    (PS_C3.busdata.filter (fun b2 => b2.is_slack)).length = 1 := by
  have hok : create_ps_data_from_rts_data RTS_C3 = .ok PS_C3 := by
    norm_num [PS_C3, RTS_C3, create_ps_data_from_rts_data, mapExcept,
      buildBus, area_load, Except.toOption]
  have hmain := C3_slack_bus_selection RTS_C3 PS_C3 hok 1 (by decide)
    (by decide) (by decide)
  exact ⟨hok, hmain.1, (hmain.2.2 (by decide)).1⟩

/-- The two-row hourly table of the C4 scenario: `Year=2020, Month=1, Day=1`
with `Period = 1` and `Period = 24` (so the table's `Period` maximum is 24). -/
def TS_C4 : List TSRow := [⟨2020, 1, 1, 1⟩, ⟨2020, 1, 1, 24⟩]

/-- C4: `read_rts_timeseries` timestamps every row with
`date + (period - 1)` hours when the table's `Period` maximum is 24, with
`date + 5 * (period - 1)` minutes when it is 288, and otherwise returns the
table unchanged with no timestamp; in particular the two rows of `TS_C4` map
to `2020-01-01T00:00:00` and `2020-01-01T23:00:00` (minutes 0 and 1380). -/
theorem C4_timestamp_derivation (rows : List TSRow) :
    ((rows.map (fun r => r.period)).max? = some 24 →
      read_rts_timeseries rows = rows.map
        (fun r => ⟨r, some ⟨r.year, r.month, r.day, (r.period - 1) * 60⟩⟩)) ∧
    ((rows.map (fun r => r.period)).max? = some 288 →
      read_rts_timeseries rows = rows.map
        (fun r => ⟨r, some ⟨r.year, r.month, r.day, 5 * (r.period - 1)⟩⟩)) ∧
    ((rows.map (fun r => r.period)).max? ≠ some 24 →
      (rows.map (fun r => r.period)).max? ≠ some 288 →
      read_rts_timeseries rows = rows.map (fun r => ⟨r, none⟩)) ∧
    read_rts_timeseries TS_C4 =
      [⟨⟨2020, 1, 1, 1⟩, some ⟨2020, 1, 1, 0⟩⟩,
       ⟨⟨2020, 1, 1, 24⟩, some ⟨2020, 1, 1, 1380⟩⟩] := by
  refine ⟨?_, ?_, ?_, by decide⟩
  · intro h24
    rw [read_rts_timeseries, if_pos h24]
  · intro h288
    rw [read_rts_timeseries, if_neg (by rw [h288]; decide), if_pos h288]
  · intro h24 h288
    rw [read_rts_timeseries, if_neg h24, if_neg h288]

/-- Witness for C4: the hourly branch applied to the concrete table `TS_C4`. -/
theorem C4_timestamp_derivation_witness :
    read_rts_timeseries TS_C4 = TS_C4.map
      (fun r => ⟨r, some ⟨r.year, r.month, r.day, (r.period - 1) * 60⟩⟩) :=
  (C4_timestamp_derivation TS_C4).1 (by decide)

theorem pwlSeg_spec (xs ys : List ℚ) (s : Nat) :
    (xs.getD s 0 - xs.getD (s - 1) 0 = 0 → pwlSeg xs ys s = (0, 0)) ∧
    (xs.getD s 0 - xs.getD (s - 1) 0 ≠ 0 →
      pwlSeg xs ys s =
        ((ys.getD s 0 - ys.getD (s - 1) 0) / (xs.getD s 0 - xs.getD (s - 1) 0),
         ys.getD (s - 1) 0 -
           ((ys.getD s 0 - ys.getD (s - 1) 0) /
             (xs.getD s 0 - xs.getD (s - 1) 0)) * xs.getD (s - 1) 0)) := by
  constructor
  · intro h
    simp only [pwlSeg]
    rw [if_pos h]
  · intro h
    simp only [pwlSeg]
    rw [if_neg h]

theorem create_pwlcost_getD (g : RTSGen) {s : Nat}
    (hs : s = 1 ∨ s = 2 ∨ s = 3) :
    (create_pwlcost_one g).slopes.getD (s - 1) 0 =
      (pwlSeg (pwl_xs g) (pwl_ys g) s).1 ∧
    (create_pwlcost_one g).intercepts.getD (s - 1) 0 =
      (pwlSeg (pwl_xs g) (pwl_ys g) s).2 := by
  rcases hs with rfl | rfl | rfl <;> exact ⟨rfl, rfl⟩

/-- A generator whose first cost segment is degenerate
(`output_pct_0 = output_pct_1`). -/
def G_C6 : RTSGen :=
  { gen_uid := "601_STEAM_1", unit_type := "STEAM", fuel := "Coal",
    bus_id := 601, min_down_time_hr := 8, min_up_time_hr := 8,
    pmax_mw := 100, pmin_mw := 30, ramp_rate_mw_per_min := 2,
    output_pct_0 := 1/2, output_pct_1 := 1/2, output_pct_2 := 3/4,
    output_pct_3 := 1, hr_avg_0 := 10, hr_incr_1 := 9,
    hr_incr_2 := 10, hr_incr_3 := 11,
    fuel_price_dollar_per_mmbtu := 2 }

/-- C6: the slope/intercept derivation of `create_pwlcost_from_rts_data` is
total: for each of the three segments, when the segment's x-width is exactly
zero no division is performed and both the slope and the intercept are
defined as 0; when it is nonzero, `slope = Δy/Δx` and
`intercept = y_start - slope * x_start`. -/
theorem C6_degenerate_segment_total (g : RTSGen) (s : Nat)
    (hs : s = 1 ∨ s = 2 ∨ s = 3) :
    ((pwl_xs g).getD s 0 - (pwl_xs g).getD (s - 1) 0 = 0 →
      (create_pwlcost_one g).slopes.getD (s - 1) 0 = 0 ∧
      (create_pwlcost_one g).intercepts.getD (s - 1) 0 = 0) ∧
    ((pwl_xs g).getD s 0 - (pwl_xs g).getD (s - 1) 0 ≠ 0 →
      (create_pwlcost_one g).slopes.getD (s - 1) 0 =
        ((pwl_ys g).getD s 0 - (pwl_ys g).getD (s - 1) 0) /
          ((pwl_xs g).getD s 0 - (pwl_xs g).getD (s - 1) 0) ∧
      (create_pwlcost_one g).intercepts.getD (s - 1) 0 =
        (pwl_ys g).getD (s - 1) 0 -
          (((pwl_ys g).getD s 0 - (pwl_ys g).getD (s - 1) 0) /
            ((pwl_xs g).getD s 0 - (pwl_xs g).getD (s - 1) 0)) *
          (pwl_xs g).getD (s - 1) 0) := by
  refine ⟨fun hdx => ⟨?_, ?_⟩, fun hdx => ⟨?_, ?_⟩⟩
  · rw [(create_pwlcost_getD g hs).1, (pwlSeg_spec _ _ _).1 hdx]
  · rw [(create_pwlcost_getD g hs).2, (pwlSeg_spec _ _ _).1 hdx]
  · rw [(create_pwlcost_getD g hs).1, (pwlSeg_spec _ _ _).2 hdx]
  · rw [(create_pwlcost_getD g hs).2, (pwlSeg_spec _ _ _).2 hdx]

/-- Witness for C6 at `G_C6`, whose first segment has zero width. -/
theorem C6_degenerate_segment_total_witness :
    (pwl_xs G_C6).getD 1 0 - (pwl_xs G_C6).getD 0 0 = 0 ∧
    (create_pwlcost_one G_C6).slopes.getD 0 0 = 0 ∧
    (create_pwlcost_one G_C6).intercepts.getD 0 0 = 0 := by
  have hdx : (pwl_xs G_C6).getD 1 0 - (pwl_xs G_C6).getD 0 0 = 0 := by
    norm_num [pwl_xs, G_C6]
  have h := (C6_degenerate_segment_total G_C6 1 (Or.inl rfl)).1 hdx
  exact ⟨hdx, h.1, h.2⟩

/-- The generator of the C7 round-trip scenario. -/
def G_C7 : RTSGen :=
  { gen_uid := "701_CT_1", unit_type := "CT", fuel := "Oil",
    bus_id := 701, min_down_time_hr := 1, min_up_time_hr := 1,
    pmax_mw := 100, pmin_mw := 30, ramp_rate_mw_per_min := 2,
    output_pct_0 := 0, output_pct_1 := 3/10, output_pct_2 := 6/10,
    output_pct_3 := 1, hr_avg_0 := 10, hr_incr_1 := 9,
    hr_incr_2 := 10, hr_incr_3 := 11,
    fuel_price_dollar_per_mmbtu := 2 }

/-- A dataset whose only generator is `G_C7`. -/
def RTS_C7 : RTSData :=
  { bus := [⟨701, "Ref", 1, 0, 0, 5⟩]
    gen := [G_C7]
    branch := []
    basemva := 100 }

/-- C7: on the scenario generator (`output_pct = [0, 0.3, 0.6, 1]`,
`hr_avg_0 = 10`, `hr_incr = [9, 10, 11]`, `fuel_price = 2`,
`pmax_mw = 100`) the cost-curve builder produces exactly one `PWLCost` with
exactly 3 slopes, 3 intercepts and `nums = 3`, whose megawatt breakpoints
are `[0, 30, 60, 100]`, strictly increasing. -/
theorem C7_pwl_roundtrip_scenario :
    (create_pwlcost_from_rts_data RTS_C7).length = 1 ∧
    ((create_pwlcost_from_rts_data RTS_C7).getD 0 default).slopes.length = 3 ∧
    ((create_pwlcost_from_rts_data RTS_C7).getD 0 default).intercepts.length = 3 ∧
    ((create_pwlcost_from_rts_data RTS_C7).getD 0 default).nums = 3 ∧
    pwl_xs G_C7 = [0, 30, 60, 100] ∧
    List.Chain' (fun x y => x < y) (pwl_xs G_C7) := by
  have hxs : pwl_xs G_C7 = [0, 30, 60, 100] := by
    norm_num [pwl_xs, G_C7]
  refine ⟨rfl, rfl, rfl, rfl, hxs, ?_⟩
  rw [hxs]
  norm_num [List.chain'_cons, List.chain'_singleton]

/-- A generator with strictly increasing output breakpoints and nondecreasing
heat-rate increments whose first increment is negative:
`hr_incr = [-10, 0, 0]`. -/
def G_C8X : RTSGen :=
  { gen_uid := "801_X_1", unit_type := "X", fuel := "X",
    bus_id := 801, min_down_time_hr := 1, min_up_time_hr := 1,
    pmax_mw := 1, pmin_mw := 0, ramp_rate_mw_per_min := 1,
    output_pct_0 := 0, output_pct_1 := 1/2, output_pct_2 := 3/5,
    output_pct_3 := 1, hr_avg_0 := 0, hr_incr_1 := -10,
    hr_incr_2 := 0, hr_incr_3 := 0,
    fuel_price_dollar_per_mmbtu := 1 }

/-- Counterexample to C8 as stated: `G_C8X` has non-degenerate output
intervals and `hr_incr_1 ≤ hr_incr_2 ≤ hr_incr_3`, yet the second slope of
its `PWLCost` exceeds the third (the chaining through `y1.max()` makes the
negative first increment inflate the second segment's rise). -/
theorem C8_slopes_monotone_counterexample :
    G_C8X.output_pct_0 < G_C8X.output_pct_1 ∧
    G_C8X.output_pct_1 < G_C8X.output_pct_2 ∧
    G_C8X.output_pct_2 < G_C8X.output_pct_3 ∧
    G_C8X.hr_incr_1 ≤ G_C8X.hr_incr_2 ∧
    G_C8X.hr_incr_2 ≤ G_C8X.hr_incr_3 ∧
    ¬ ((create_pwlcost_one G_C8X).slopes.getD 1 0 ≤
        (create_pwlcost_one G_C8X).slopes.getD 2 0) := by
  norm_num [G_C8X, create_pwlcost_one, pwlSeg, pwl_xs, pwl_ys, pwl_y1,
    pwl_y2, pwl_y3, pwl_y1max, pwl_y2max, pwl_m1, pwl_m2, pwl_m3,
    min_def, max_def]

/-- C8 (amended): for a generator with non-degenerate output intervals
(`output_pct_0 < output_pct_1 < output_pct_2 < output_pct_3`), nondecreasing
and nonnegative heat-rate increments (`0 ≤ hr_incr_1 ≤ hr_incr_2 ≤
hr_incr_3`) and nonnegative fuel price, the three slopes of the produced
`PWLCost` are monotonically non-decreasing. -/
theorem C8_slopes_monotone_nonneg (g : RTSGen)
    (h01 : g.output_pct_0 < g.output_pct_1)
    (h12 : g.output_pct_1 < g.output_pct_2)
    (h23 : g.output_pct_2 < g.output_pct_3)
    (hh1 : 0 ≤ g.hr_incr_1)
    (hh12 : g.hr_incr_1 ≤ g.hr_incr_2)
    (hh23 : g.hr_incr_2 ≤ g.hr_incr_3)
    (hf : 0 ≤ g.fuel_price_dollar_per_mmbtu) :
    (create_pwlcost_one g).slopes.getD 0 0 ≤
      (create_pwlcost_one g).slopes.getD 1 0 ∧
    (create_pwlcost_one g).slopes.getD 1 0 ≤
      (create_pwlcost_one g).slopes.getD 2 0 := by
  have hg1 : (create_pwlcost_one g).slopes.getD 0 0
      = (pwlSeg (pwl_xs g) (pwl_ys g) 1).1 := rfl
  have hg2 : (create_pwlcost_one g).slopes.getD 1 0
      = (pwlSeg (pwl_xs g) (pwl_ys g) 2).1 := rfl
  have hg3 : (create_pwlcost_one g).slopes.getD 2 0
      = (pwlSeg (pwl_xs g) (pwl_ys g) 3).1 := rfl
  have hx0 : (pwl_xs g).getD 0 0 = g.output_pct_0 * g.pmax_mw := rfl
  have hx1 : (pwl_xs g).getD 1 0 = g.output_pct_1 * g.pmax_mw := rfl
  have hx2 : (pwl_xs g).getD 2 0 = g.output_pct_2 * g.pmax_mw := rfl
  have hx3 : (pwl_xs g).getD 3 0 = g.output_pct_3 * g.pmax_mw := rfl
  have hy0 : (pwl_ys g).getD 0 0 = pwl_y1 g g.output_pct_0 * g.pmax_mw *
      g.fuel_price_dollar_per_mmbtu / 1000 := rfl
  have hy1 : (pwl_ys g).getD 1 0 = pwl_y1 g g.output_pct_1 * g.pmax_mw *
      g.fuel_price_dollar_per_mmbtu / 1000 := rfl
  have hy2 : (pwl_ys g).getD 2 0 = pwl_y2 g g.output_pct_2 * g.pmax_mw *
      g.fuel_price_dollar_per_mmbtu / 1000 := rfl
  have hy3 : (pwl_ys g).getD 3 0 = pwl_y3 g g.output_pct_3 * g.pmax_mw *
      g.fuel_price_dollar_per_mmbtu / 1000 := rfl
  by_cases hp : g.pmax_mw = 0
  · have e1 : (pwl_xs g).getD 1 0 - (pwl_xs g).getD 0 0 = 0 := by
      rw [hx1, hx0, hp]; ring
    have e2 : (pwl_xs g).getD 2 0 - (pwl_xs g).getD 1 0 = 0 := by
      rw [hx2, hx1, hp]; ring
    have e3 : (pwl_xs g).getD 3 0 - (pwl_xs g).getD 2 0 = 0 := by
      rw [hx3, hx2, hp]; ring
    rw [hg1, hg2, hg3, (pwlSeg_spec _ _ 1).1 e1, (pwlSeg_spec _ _ 2).1 e2,
      (pwlSeg_spec _ _ 3).1 e3]
    exact ⟨le_refl 0, le_refl 0⟩
  · have hy1max : pwl_y1max g = pwl_y1 g g.output_pct_1 := by
      rw [pwl_y1max]
      apply max_eq_right
      rw [pwl_y1, pwl_y1]
      have h := mul_le_mul_of_nonneg_right
        (sub_le_sub_right h01.le (pwl_m1 g)) hh1
      linarith
    have hy2max : pwl_y2max g = pwl_y2 g g.output_pct_2 := by
      rw [pwl_y2max]
      apply max_eq_right
      rw [pwl_y2, pwl_y2]
      have h := mul_le_mul_of_nonneg_right
        (sub_le_sub_right h12.le (pwl_m2 g)) (hh1.trans hh12)
      linarith
    have hm2 : pwl_m2 g = g.output_pct_1 := min_eq_left h12.le
    have hm3 : pwl_m3 g = g.output_pct_2 := min_eq_left h23.le
    have hd1 : g.output_pct_1 - g.output_pct_0 ≠ 0 := sub_ne_zero_of_ne h01.ne'
    have hd2 : g.output_pct_2 - g.output_pct_1 ≠ 0 := sub_ne_zero_of_ne h12.ne'
    have hd3 : g.output_pct_3 - g.output_pct_2 ≠ 0 := sub_ne_zero_of_ne h23.ne'
    have hne1 : g.output_pct_1 * g.pmax_mw - g.output_pct_0 * g.pmax_mw ≠ 0 := by
      rw [show g.output_pct_1 * g.pmax_mw - g.output_pct_0 * g.pmax_mw
        = (g.output_pct_1 - g.output_pct_0) * g.pmax_mw from by ring]
      exact mul_ne_zero hd1 hp
    have hne2 : g.output_pct_2 * g.pmax_mw - g.output_pct_1 * g.pmax_mw ≠ 0 := by
      rw [show g.output_pct_2 * g.pmax_mw - g.output_pct_1 * g.pmax_mw
        = (g.output_pct_2 - g.output_pct_1) * g.pmax_mw from by ring]
      exact mul_ne_zero hd2 hp
    have hne3 : g.output_pct_3 * g.pmax_mw - g.output_pct_2 * g.pmax_mw ≠ 0 := by
      rw [show g.output_pct_3 * g.pmax_mw - g.output_pct_2 * g.pmax_mw
        = (g.output_pct_3 - g.output_pct_2) * g.pmax_mw from by ring]
      exact mul_ne_zero hd3 hp
    have hdxne1 : (pwl_xs g).getD 1 0 - (pwl_xs g).getD 0 0 ≠ 0 := by
      rw [hx1, hx0]; exact hne1
    have hdxne2 : (pwl_xs g).getD 2 0 - (pwl_xs g).getD 1 0 ≠ 0 := by
      rw [hx2, hx1]; exact hne2
    have hdxne3 : (pwl_xs g).getD 3 0 - (pwl_xs g).getD 2 0 ≠ 0 := by
      rw [hx3, hx2]; exact hne3
    have hs1 : (pwlSeg (pwl_xs g) (pwl_ys g) 1).1
        = g.hr_incr_1 * (g.fuel_price_dollar_per_mmbtu / 1000) := by
      rw [(pwlSeg_spec _ _ 1).2 hdxne1]
      rw [hy1, hy0, hx1, hx0, div_eq_iff hne1, pwl_y1, pwl_y1]
      ring
    have hs2 : (pwlSeg (pwl_xs g) (pwl_ys g) 2).1
        = g.hr_incr_2 * (g.fuel_price_dollar_per_mmbtu / 1000) := by
      rw [(pwlSeg_spec _ _ 2).2 hdxne2]
      rw [hy2, hy1, hx2, hx1, div_eq_iff hne2, pwl_y2, hm2, hy1max]
      ring
    have hs3 : (pwlSeg (pwl_xs g) (pwl_ys g) 3).1
        = g.hr_incr_3 * (g.fuel_price_dollar_per_mmbtu / 1000) := by
      rw [(pwlSeg_spec _ _ 3).2 hdxne3]
      rw [hy3, hy2, hx3, hx2, div_eq_iff hne3, pwl_y3, hm3, hy2max]
      ring
    rw [hg1, hg2, hg3, hs1, hs2, hs3]
    have hq : (0 : ℚ) ≤ g.fuel_price_dollar_per_mmbtu / 1000 :=
      div_nonneg hf (by norm_num)
    exact ⟨mul_le_mul_of_nonneg_right hh12 hq,
      mul_le_mul_of_nonneg_right hh23 hq⟩

/-- Witness for the amended C8 at the generator `G_C7`
(`hr_incr = [9, 10, 11]`, fuel price 2). -/
theorem C8_slopes_monotone_nonneg_witness :
    (create_pwlcost_one G_C7).slopes.getD 0 0 ≤
      (create_pwlcost_one G_C7).slopes.getD 1 0 ∧
    (create_pwlcost_one G_C7).slopes.getD 1 0 ≤
      (create_pwlcost_one G_C7).slopes.getD 2 0 :=
  C8_slopes_monotone_nonneg G_C7 (by norm_num [G_C7]) (by norm_num [G_C7])
    (by norm_num [G_C7]) (by norm_num [G_C7]) (by norm_num [G_C7])
    (by norm_num [G_C7]) (by norm_num [G_C7])
